import Mathlib

set_option maxHeartbeats 1000000

/-!
Shallow embedding of the InvoiceFlow AI backend (src/main.py, src/schemas.py).

Strings are modelled over ASCII character lists (Python's `str` methods
`isdigit`, `isalpha`, `capitalize` are restricted to their ASCII behaviour,
which is all the repository's inputs exercise).  Python `float` amounts are
modelled as exact rationals; every amount the code manipulates
(199.0, decimal filename tokens, request bodies) is an exact decimal, so no
rounding behaviour is lost.  Wall-clock readings (`datetime.now()`) are passed
in as explicit parameters: `nowDate` is the `%Y-%m-%d` rendering of the current
date and `tsStr`/`tsNow` are the decimal renderings of
`int(datetime.now().timestamp())`.

The MongoDB document store is modelled as a list of invoice documents.
`updateOne` updates the first document matching the filter.  Following
MongoDB's documented behaviour, an update whose `$set` document is empty is
rejected with a write error (surfaced through pymongo as an exception).
-/

/-- Python `p.replace(".", "", 1)` over a character list. -/
def removeFirstDot : List Char → List Char
  | [] => []
  | c :: cs => if c == '.' then cs else c :: removeFirstDot cs

/-- The guard `p.replace(".", "", 1).isdigit()` from `mock_ai_extract`
(src/main.py line 56): nonempty and all digits after deleting at most one dot. -/
def isNumToken (p : List Char) : Bool :=
  !(removeFirstDot p).isEmpty && (removeFirstDot p).all Char.isDigit

/-- Value of a list of decimal digit characters. -/
def digitsToNat (l : List Char) : Nat :=
  l.foldl (fun a c => a * 10 + (c.toNat - 48)) 0

/-- Python `float(p)` on a token that passed the `isNumToken` guard
(at most one dot, digits elsewhere), as an exact rational. -/
def parseFloatToken (p : List Char) : ℚ :=
  match p.dropWhile (fun c => c != '.') with
  | [] => (digitsToNat (p.takeWhile (fun c => c != '.')) : ℚ)
  | _ :: fp =>
    (digitsToNat (p.takeWhile (fun c => c != '.')) : ℚ)
      + (digitsToNat fp : ℚ) / (10 : ℚ) ^ fp.length

/-- Python `p.capitalize()`: first character upper-cased, rest lower-cased. -/
def capitalizeTok : List Char → List Char
  | [] => []
  | c :: cs => c.toUpper :: cs.map Char.toLower

/-- `os.path.basename`: the suffix after the last '/'. -/
def basenameChars (s : List Char) : List Char :=
  (s.reverse.takeWhile (fun c => c != '/')).reverse

/-- `os.path.splitext(s)[0]`: drop the suffix from the last '.' on, unless
every character before that dot is itself a dot (leading-dot files keep
their name). -/
def stripExt (s : List Char) : List Char :=
  match s.reverse.dropWhile (fun c => c != '.') with
  | [] => s
  | _ :: rest => if rest.reverse.all (fun c => c == '.') then s else rest.reverse

/-- Python `str.replace("-", "_")` (src/main.py line 54). -/
def replaceDash : List Char → List Char
  | [] => []
  | c :: cs => (if c == '-' then '_' else c) :: replaceDash cs

/-- Python `str.split("_")` (keeps empty fields, as Python does). -/
def splitUAux : List Char → List Char → List (List Char)
  | [], acc => [acc.reverse]
  | c :: cs, acc =>
    if c == '_' then acc.reverse :: splitUAux cs [] else splitUAux cs (c :: acc)

def splitU (l : List Char) : List (List Char) := splitUAux l []

/-- Output record of `mock_ai_extract` (src/main.py lines 65-70). -/
structure Extracted where
  vendor_name : String
  invoice_number : String
  total_amount : ℚ
  date : String
deriving DecidableEq

/-- Guard `len(p) >= 3 and p.isalpha()` (src/main.py line 61). -/
def alphaGuard (p : List Char) : Bool :=
  decide (3 ≤ p.length) && p.all Char.isAlpha

/-- Guard `len(p) == 10 and p[4] == '-' and p[7] == '-'` (src/main.py line 63). -/
def dateGuard (p : List Char) : Bool :=
  p.length == 10 && p.getD 4 ' ' == '-' && p.getD 7 ' ' == '-'

/-- One iteration of the token loop in `mock_ai_extract`
(src/main.py lines 55-64).  The `try/except` around `float(p)` cannot fire in
the ASCII model (the guard guarantees the parse succeeds), so the numeric rule
is total here. -/
def procToken (st : Extracted) (p : List Char) : Extracted :=
  let st1 := if isNumToken p then { st with total_amount := parseFloatToken p } else st
  let st2 := if alphaGuard p then { st1 with vendor_name := (capitalizeTok p).asString } else st1
  if dateGuard p then { st2 with date := p.asString } else st2

/-- Token list of `mock_ai_extract`: base name, extension stripped, dashes
replaced by underscores, split on underscores (src/main.py lines 48-54). -/
def extractTokens (pathData : List Char) : List (List Char) :=
  splitU (replaceDash (stripExt (basenameChars pathData)))

/-- `mock_ai_extract` (src/main.py lines 47-70).  `nowDate` is
`datetime.now().strftime("%Y-%m-%d")` and `tsNow` the decimal rendering of
`int(datetime.now().timestamp())`. -/
def mock_ai_extract (file_path nowDate tsNow : String) : Extracted :=
  (extractTokens file_path.data).foldl procToken
    { vendor_name := "Acme Corp"
      invoice_number := "INV-" ++ tsNow
      total_amount := 199
      date := nowDate }

/-- A document of the `invoice` collection (src/schemas.py lines 23-35).
`status` is always present (pydantic default "Processing"). -/
structure InvoiceDoc where
  id : String
  user_id : String
  file_path : Option String
  file_name : Option String
  invoice_number : Option String
  vendor_name : Option String
  date : Option String
  total_amount : Option ℚ
  status : String
deriving DecidableEq

/-- MongoDB `update_one`: patch the first document matching the filter,
returning the matched count and the new collection. -/
def updateFirst (p : InvoiceDoc → Bool) (f : InvoiceDoc → InvoiceDoc) :
    List InvoiceDoc → Nat × List InvoiceDoc
  | [] => (0, [])
  | d :: ds =>
    if p d then (1, f d :: ds)
    else ((updateFirst p f ds).1, d :: (updateFirst p f ds).2)

/-- HTTP error kinds raised by the handlers: 401, 400, 404. -/
inductive HErr where
  | unauthenticated
  | badRequest
  | notFound
deriving DecidableEq

def isHexChar (c : Char) : Bool :=
  c.isDigit || ('a' ≤ c && c ≤ 'f') || ('A' ≤ c && c ≤ 'F')

/-- `bson.ObjectId(s)` accepts exactly 24 hexadecimal characters. -/
def isValidObjectId (s : String) : Bool :=
  s.length == 24 && s.data.all isHexChar

/-- `UpdateInvoiceRequest` (src/main.py lines 35-41): all five updatable
fields optional, no bound on `total_amount`. -/
structure UpdateInvoiceRequest where
  invoice_id : String
  invoice_number : Option String
  vendor_name : Option String
  date : Option String
  total_amount : Option ℚ
  status : Option String
deriving DecidableEq

/-- Whether `{k: v for k, v in payload.model_dump().items() if k != "invoice_id"
and v is not None}` (src/main.py line 176) is nonempty. -/
def hasUpdates (r : UpdateInvoiceRequest) : Bool :=
  r.invoice_number.isSome || r.vendor_name.isSome || r.date.isSome
    || r.total_amount.isSome || r.status.isSome

/-- `$set` of the non-null request fields onto a stored document. -/
def applyUpdates (r : UpdateInvoiceRequest) (d : InvoiceDoc) : InvoiceDoc :=
  { d with
    invoice_number := match r.invoice_number with | some v => some v | none => d.invoice_number
    vendor_name := match r.vendor_name with | some v => some v | none => d.vendor_name
    date := match r.date with | some v => some v | none => d.date
    total_amount := match r.total_amount with | some v => some v | none => d.total_amount
    status := match r.status with | some v => v | none => d.status }

/-- `update_invoice` (src/main.py lines 170-182).  Everything from the
`ObjectId` parse to the explicit `HTTPException(404)` runs inside one
`try: ... except Exception as e: raise HTTPException(400, str(e))`, so a
malformed id, MongoDB's rejection of an empty `$set`, and the explicitly
raised 404 all surface to the caller as 400. -/
def update_invoice (cu : Option String) (r : UpdateInvoiceRequest)
    (store : List InvoiceDoc) : Except HErr Unit × List InvoiceDoc :=
  match cu with
  | none => (.error .unauthenticated, store)
  | some user =>
    if !isValidObjectId r.invoice_id then (.error .badRequest, store)
    else if !hasUpdates r then (.error .badRequest, store)
    else
      let res := updateFirst (fun d => d.id == r.invoice_id && d.user_id == user)
        (applyUpdates r) store
      if res.1 == 0 then (.error .badRequest, res.2)
      else (.ok (), res.2)

/-- The JSON payload returned by `upload_invoice` (src/main.py line 147). -/
structure UploadResult where
  id : String
  vendor_name : String
  invoice_number : String
  total_amount : ℚ
  date : String
  status : String
deriving DecidableEq

/-- `upload_invoice` (src/main.py lines 117-147).  `tsStr` renders the
timestamp used for the stored file name, `newId` is the id the store assigns
to the inserted document, and `patchFails` selects whether the post-extraction
`update_one` raises (the code swallows either outcome via `try/except: pass`). -/
def upload_invoice (cu : Option String) (origName tsStr tsNow nowDate newId : String)
    (patchFails : Bool) (store : List InvoiceDoc) :
    Except HErr UploadResult × List InvoiceDoc :=
  match cu with
  | none => (.error .unauthenticated, store)
  | some user =>
    let file_path := "uploads/" ++ (tsStr ++ "_" ++ origName)
    let inserted : InvoiceDoc :=
      { id := newId
        user_id := user
        file_path := some file_path
        file_name := some origName
        invoice_number := none
        vendor_name := none
        date := none
        total_amount := none
        status := "Processing" }
    let ex := mock_ai_extract file_path nowDate tsNow
    let store1 := store ++ [inserted]
    let store2 :=
      if patchFails then store1
      else (updateFirst (fun d => d.id == newId)
        (fun d =>
          { d with
            vendor_name := some ex.vendor_name
            invoice_number := some ex.invoice_number
            total_amount := some ex.total_amount
            date := some ex.date }) store1).2
    (.ok { id := newId
           vendor_name := ex.vendor_name
           invoice_number := ex.invoice_number
           total_amount := ex.total_amount
           date := ex.date
           status := "Needs Review" }, store2)

/-- A document of the `user` collection (src/schemas.py lines 12-21). -/
structure UserDoc where
  name : String
  email : String
  subscription_tier : String
  credits_remaining : Nat
  role : String
deriving DecidableEq

/-- `create_user` (src/main.py lines 94-104).  The pydantic `Literal`
constraints of the `User` schema reject any tier outside {"Free", "Pro"} and
any role outside {"admin", "customer"} with a validation error. -/
def create_user (name email subscription_tier role : String) : Except Unit UserDoc :=
  if (subscription_tier == "Free" || subscription_tier == "Pro")
      && (role == "admin" || role == "customer") then
    .ok { name := name, email := email, subscription_tier := subscription_tier,
          credits_remaining := if subscription_tier == "Free" then 50 else 1000,
          role := role }
  else .error ()

example : mock_ai_extract "uploads/1700000000_receipt.pdf" "2025-06-05" "1700000001"
    = { vendor_name := "Receipt", invoice_number := "INV-1700000001",
        total_amount := 1700000000, date := "2025-06-05" } := by decide

example : mock_ai_extract "uploads/1700000000_acme_250.50_2024-03-01.pdf" "2025-06-05" "1700000001"
    = { vendor_name := "Acme", invoice_number := "INV-1700000001",
        total_amount := 1, date := "2025-06-05" } := by decide

/-! ## Helper lemmas about the tokenizer -/

theorem mem_splitUAux {t : List Char} :
    ∀ (l acc : List Char), t ∈ splitUAux l acc → ∀ c ∈ t, c ∈ l ∨ c ∈ acc := by
  intro l
  induction l with
  | nil =>
    intro acc ht c hc
    simp only [splitUAux, List.mem_singleton] at ht
    subst ht
    exact Or.inr (List.mem_reverse.mp hc)
  | cons a l ih =>
    intro acc ht c hc
    simp only [splitUAux] at ht
    by_cases ha : a = '_'
    · rw [if_pos (by simp [ha])] at ht
      rcases List.mem_cons.mp ht with h1 | h1
      · subst h1
        exact Or.inr (List.mem_reverse.mp hc)
      · rcases ih [] h1 c hc with h2 | h2
        · exact Or.inl (List.mem_cons_of_mem _ h2)
        · exact absurd h2 (List.not_mem_nil c)
    · rw [if_neg (by simp [ha])] at ht
      rcases ih (a :: acc) ht c hc with h2 | h2
      · exact Or.inl (List.mem_cons_of_mem _ h2)
      · rcases List.mem_cons.mp h2 with h3 | h3
        · exact Or.inl (h3 ▸ List.mem_cons_self a l)
        · exact Or.inr h3

theorem mem_splitU {t : List Char} {l : List Char} (ht : t ∈ splitU l) :
    ∀ c ∈ t, c ∈ l := by
  intro c hc
  rcases mem_splitUAux l [] ht c hc with h | h
  · exact h
  · exact absurd h (List.not_mem_nil c)

theorem not_dash_mem_replaceDash : ∀ (l : List Char), '-' ∉ replaceDash l := by
  intro l
  induction l with
  | nil => simp [replaceDash]
  | cons c cs ih =>
    simp only [replaceDash, List.mem_cons]
    rintro (h | h)
    · by_cases hc : c = '-'
      · rw [if_pos (by simp [hc])] at h
        exact absurd h.symm (by decide)
      · rw [if_neg (by simp [hc])] at h
        exact hc h.symm
    · exact ih h

theorem getD_mem_of_lt : ∀ (l : List Char) (n : Nat) (d : Char), n < l.length →
    l.getD n d ∈ l := by
  intro l
  induction l with
  | nil => intro n d h; simp at h
  | cons a l ih =>
    intro n d h
    cases n with
    | zero => simp [List.getD]
    | succ m =>
      have hm : m < l.length := by simpa using h
      simpa [List.getD] using Or.inr (ih m d hm)

theorem dateGuard_eq_false {p : List Char} (h : '-' ∉ p) : dateGuard p = false := by
  unfold dateGuard
  cases hl : (p.length == 10) with
  | false => rfl
  | true =>
    have hlen : p.length = 10 := by simpa using hl
    have hmem : p.getD 4 ' ' ∈ p := getD_mem_of_lt p 4 ' ' (by omega)
    have hne : (p.getD 4 ' ' == '-') = false :=
      beq_eq_false_iff_ne.mpr (fun he => h (he ▸ hmem))
    rw [hne]; rfl

theorem procToken_date_eq {st : Extracted} {p : List Char} (h : '-' ∉ p) :
    (procToken st p).date = st.date := by
  unfold procToken
  rw [dateGuard_eq_false h]
  by_cases h1 : isNumToken p = true <;> by_cases h2 : alphaGuard p = true <;>
    simp [h1, h2]

theorem foldl_procToken_date :
    ∀ (l : List (List Char)) (st : Extracted), (∀ t ∈ l, '-' ∉ t) →
      (l.foldl procToken st).date = st.date := by
  intro l
  induction l with
  | nil => intro st _; rfl
  | cons t l ih =>
    intro st h
    rw [List.foldl_cons, ih (procToken st t) (fun u hu => h u (List.mem_cons_of_mem _ hu)),
      procToken_date_eq (h t (List.mem_cons_self t l))]

theorem takeWhile_slash_append :
    ∀ (l₁ l₂ : List Char), (∀ c ∈ l₁, c ≠ '/') →
      (l₁ ++ '/' :: l₂).takeWhile (fun c => c != '/') = l₁ := by
  intro l₁
  induction l₁ with
  | nil => intro l₂ _; simp [List.takeWhile]
  | cons a l ih =>
    intro l₂ h
    have ha : (a != '/') = true := bne_iff_ne.mpr (h a (List.mem_cons_self a l))
    rw [List.cons_append, List.takeWhile_cons, ha, if_pos rfl,
      ih l₂ (fun c hc => h c (List.mem_cons_of_mem _ hc))]

theorem basenameChars_append {tail : List Char} (pre : List Char)
    (h : ∀ c ∈ tail, c ≠ '/') :
    basenameChars (pre ++ '/' :: tail) = tail := by
  unfold basenameChars
  have hrev : (pre ++ '/' :: tail).reverse = tail.reverse ++ '/' :: pre.reverse := by
    simp [List.reverse_append]
  rw [hrev, takeWhile_slash_append _ _ (fun c hc => h c (List.mem_reverse.mp hc)),
    List.reverse_reverse]

theorem dropWhile_dot_append :
    ∀ (l₁ l₂ : List Char), (∀ c ∈ l₁, c ≠ '.') →
      (l₁ ++ '.' :: l₂).dropWhile (fun c => c != '.') = '.' :: l₂ := by
  intro l₁
  induction l₁ with
  | nil => intro l₂ _; simp [List.dropWhile]
  | cons a l ih =>
    intro l₂ h
    have ha : (a != '.') = true := bne_iff_ne.mpr (h a (List.mem_cons_self a l))
    rw [List.cons_append, List.dropWhile_cons, ha, if_pos rfl]
    exact ih l₂ (fun c hc => h c (List.mem_cons_of_mem _ hc))

theorem stripExt_append {a ext : List Char} (hext : ∀ c ∈ ext, c ≠ '.')
    (ha : a.all (fun c => c == '.') = false) :
    stripExt (a ++ '.' :: ext) = a := by
  unfold stripExt
  have hrev : (a ++ '.' :: ext).reverse = ext.reverse ++ '.' :: a.reverse := by
    simp [List.reverse_append]
  rw [hrev, dropWhile_dot_append _ _ (fun c hc => hext c (List.mem_reverse.mp hc))]
  show (if (a.reverse.reverse.all fun c => c == '.') = true then a ++ '.' :: ext
    else a.reverse.reverse) = a
  rw [List.reverse_reverse, if_neg (by simp [ha])]

theorem replaceDash_append (a b : List Char) :
    replaceDash (a ++ b) = replaceDash a ++ replaceDash b := by
  induction a with
  | nil => rfl
  | cons c cs ih => simp [replaceDash, ih]

theorem replaceDash_eq_self {a : List Char} (h : ∀ c ∈ a, c ≠ '-') :
    replaceDash a = a := by
  induction a with
  | nil => rfl
  | cons c cs ih =>
    have hc : (c == '-') = false := beq_eq_false_iff_ne.mpr (h c (List.mem_cons_self c cs))
    simp only [replaceDash, hc]
    rw [ih (fun x hx => h x (List.mem_cons_of_mem _ hx))]
    simp

theorem splitUAux_append :
    ∀ (a acc b : List Char), (∀ c ∈ a, c ≠ '_') →
      splitUAux (a ++ '_' :: b) acc = (acc.reverse ++ a) :: splitU b := by
  intro a
  induction a with
  | nil => intro acc b _; simp [splitUAux, splitU]
  | cons c cs ih =>
    intro acc b h
    have hc : (c == '_') = false := beq_eq_false_iff_ne.mpr (h c (List.mem_cons_self c cs))
    simp only [List.cons_append, splitUAux, hc]
    rw [if_neg Bool.false_ne_true]
    have hih := ih (c :: acc) b (fun x hx => h x (List.mem_cons_of_mem _ hx))
    rw [List.reverse_cons, List.append_assoc, List.singleton_append] at hih
    exact hih

theorem splitU_append {a b : List Char} (h : ∀ c ∈ a, c ≠ '_') :
    splitU (a ++ '_' :: b) = a :: splitU b := by
  unfold splitU
  rw [splitUAux_append a [] b h]
  simp [splitU]

/-! ## Facts about digit characters and digit tokens -/

theorem digit_ne {c : Char} (h : c.isDigit = true) :
    c ≠ '-' ∧ c ≠ '_' ∧ c ≠ '.' ∧ c ≠ '/' := by
  refine ⟨fun e => ?_, fun e => ?_, fun e => ?_, fun e => ?_⟩ <;>
    (subst e; exact absurd h (by decide))

theorem digit_not_alpha {c : Char} (h : c.isDigit = true) : c.isAlpha = false := by
  have h09 : '0' ≤ c ∧ c ≤ '9' := by
    simpa [Char.isDigit, Bool.and_eq_true, decide_eq_true_eq] using h
  cases ha : c.isAlpha with
  | false => rfl
  | true =>
    exfalso
    rw [Char.isAlpha] at ha
    rcases Bool.or_eq_true_iff.mp ha with hu | hl
    · have hAc : 'A' ≤ c ∧ c ≤ 'Z' := by
        simpa [Char.isUpper, Bool.and_eq_true, decide_eq_true_eq] using hu
      exact absurd (le_trans hAc.1 h09.2) (by decide)
    · have hac : 'a' ≤ c ∧ c ≤ 'z' := by
        simpa [Char.isLower, Bool.and_eq_true, decide_eq_true_eq] using hl
      exact absurd (le_trans hac.1 h09.2) (by decide)

theorem removeFirstDot_eq_self {p : List Char} (h : ∀ c ∈ p, c ≠ '.') :
    removeFirstDot p = p := by
  induction p with
  | nil => rfl
  | cons c cs ih =>
    have hc : (c == '.') = false := beq_eq_false_iff_ne.mpr (h c (List.mem_cons_self c cs))
    simp only [removeFirstDot, hc, if_neg]
    rw [ih (fun x hx => h x (List.mem_cons_of_mem _ hx))]
    simp

theorem all_digit_forall {p : List Char} (hd : p.all Char.isDigit = true) :
    ∀ c ∈ p, c.isDigit = true := by
  intro c hc
  exact List.all_eq_true.mp hd c hc

theorem isNumToken_digits {p : List Char} (hne : p ≠ [])
    (hd : p.all Char.isDigit = true) : isNumToken p = true := by
  unfold isNumToken
  rw [removeFirstDot_eq_self (fun c hc => ((digit_ne (all_digit_forall hd c hc)).2.2.1))]
  cases p with
  | nil => exact absurd rfl hne
  | cons c cs => simp_all

theorem alphaGuard_digits {p : List Char} (hne : p ≠ [])
    (hd : p.all Char.isDigit = true) : alphaGuard p = false := by
  unfold alphaGuard
  cases p with
  | nil => exact absurd rfl hne
  | cons c cs =>
    have hc : c.isAlpha = false := digit_not_alpha (all_digit_forall hd c (List.mem_cons_self c cs))
    simp [hc]

theorem dateGuard_digits {p : List Char} (hd : p.all Char.isDigit = true) :
    dateGuard p = false := by
  apply dateGuard_eq_false
  intro hmem
  exact absurd (all_digit_forall hd '-' hmem) (by decide)

theorem takeWhile_dot_eq_self {p : List Char} (h : ∀ c ∈ p, c ≠ '.') :
    p.takeWhile (fun c => c != '.') = p := by
  induction p with
  | nil => rfl
  | cons c cs ih =>
    have hc : (c != '.') = true := bne_iff_ne.mpr (h c (List.mem_cons_self c cs))
    simp only [List.takeWhile, hc]
    rw [ih (fun x hx => h x (List.mem_cons_of_mem _ hx))]

theorem dropWhile_dot_eq_nil {p : List Char} (h : ∀ c ∈ p, c ≠ '.') :
    p.dropWhile (fun c => c != '.') = [] := by
  induction p with
  | nil => rfl
  | cons c cs ih =>
    have hc : (c != '.') = true := bne_iff_ne.mpr (h c (List.mem_cons_self c cs))
    simp only [List.dropWhile, hc]
    exact ih (fun x hx => h x (List.mem_cons_of_mem _ hx))

theorem parseFloatToken_digits {p : List Char} (hd : p.all Char.isDigit = true) :
    parseFloatToken p = (digitsToNat p : ℚ) := by
  unfold parseFloatToken
  have hnd : ∀ c ∈ p, c ≠ '.' := fun c hc => (digit_ne (all_digit_forall hd c hc)).2.2.1
  rw [dropWhile_dot_eq_nil hnd]
  rw [takeWhile_dot_eq_self hnd]

theorem procToken_digits {st : Extracted} (p : List Char) (hne : p ≠ [])
    (hd : p.all Char.isDigit = true) :
    procToken st p = { st with total_amount := (digitsToNat p : ℚ) } := by
  unfold procToken
  rw [isNumToken_digits hne hd, alphaGuard_digits hne hd, dateGuard_digits hd,
    parseFloatToken_digits hd]
  simp

theorem procToken_num_only {st : Extracted} (p : List Char)
    (h1 : isNumToken p = true) (h2 : alphaGuard p = false) (h3 : dateGuard p = false) :
    procToken st p = { st with total_amount := parseFloatToken p } := by
  unfold procToken
  rw [h1, h2, h3]
  simp

theorem procToken_alpha_only {st : Extracted} (p : List Char)
    (h1 : isNumToken p = false) (h2 : alphaGuard p = true) (h3 : dateGuard p = false) :
    procToken st p = { st with vendor_name := (capitalizeTok p).asString } := by
  unfold procToken
  rw [h1, h2, h3]
  simp

/-! ## Extraction on the two filenames of the spec's round-trip properties.
The stored file name is `f"{int(datetime.now().timestamp())}_{file.filename}"`,
so the heuristic sees a leading all-digit timestamp token. -/

theorem extract_tokens_acme (ts : List Char) (hd : ts.all Char.isDigit = true) :
    extractTokens ("uploads/".data ++ (ts ++ "_acme_250.50_2024-03-01.pdf".data)) =
      ts :: ["acme".data, "250.50".data, "2024".data, "03".data, "01".data] := by
  have hdig := all_digit_forall hd
  have hslash : ∀ c ∈ ts ++ "_acme_250.50_2024-03-01.pdf".data, c ≠ '/' := by
    intro c hc
    rcases List.mem_append.mp hc with h | h
    · exact (digit_ne (hdig c h)).2.2.2
    · intro he
      subst he
      exact absurd h (by decide)
  have hext : ∀ c ∈ "pdf".data, c ≠ '.' := by decide
  have hall : (ts ++ "_acme_250.50_2024-03-01".data).all (fun c => c == '.') = false := by
    rw [List.all_append]
    have hlit : "_acme_250.50_2024-03-01".data.all (fun c => c == '.') = false := by decide
    rw [hlit, Bool.and_false]
  unfold extractTokens
  have h1 : "uploads/".data ++ (ts ++ "_acme_250.50_2024-03-01.pdf".data)
      = "uploads".data ++ '/' :: (ts ++ "_acme_250.50_2024-03-01.pdf".data) := rfl
  rw [h1, basenameChars_append _ hslash]
  have h2 : ts ++ "_acme_250.50_2024-03-01.pdf".data
      = (ts ++ "_acme_250.50_2024-03-01".data) ++ '.' :: "pdf".data := by
    rw [List.append_assoc]
    exact congrArg (fun x => ts ++ x) (by decide)
  rw [h2, stripExt_append hext hall]
  rw [replaceDash_append, replaceDash_eq_self (fun c hc => (digit_ne (hdig c hc)).1)]
  have h3 : replaceDash "_acme_250.50_2024-03-01".data
      = '_' :: "acme_250.50_2024_03_01".data := by decide
  rw [h3, splitU_append (fun c hc => (digit_ne (hdig c hc)).2.1)]
  have h4 : splitU "acme_250.50_2024_03_01".data
      = ["acme".data, "250.50".data, "2024".data, "03".data, "01".data] := by decide
  rw [h4]

theorem extract_acme (ts nd ti : String) (hne : ts.data ≠ [])
    (hd : ts.data.all Char.isDigit = true) :
    mock_ai_extract ("uploads/" ++ (ts ++ "_" ++ "acme_250.50_2024-03-01.pdf")) nd ti
      = { vendor_name := "Acme", invoice_number := "INV-" ++ ti,
          total_amount := 1, date := nd } := by
  unfold mock_ai_extract
  have hpath : ("uploads/" ++ (ts ++ "_" ++ "acme_250.50_2024-03-01.pdf")).data
      = "uploads/".data ++ (ts.data ++ "_acme_250.50_2024-03-01.pdf".data) := by
    show "uploads/".data ++ ((ts.data ++ "_".data) ++ "acme_250.50_2024-03-01.pdf".data) = _
    rw [List.append_assoc]
    exact congrArg (fun x => "uploads/".data ++ (ts.data ++ x)) (by decide)
  rw [hpath, extract_tokens_acme ts.data hd]
  rw [List.foldl_cons, procToken_digits ts.data hne hd]
  rw [List.foldl_cons, procToken_alpha_only "acme".data (by decide) (by decide) (by decide)]
  rw [List.foldl_cons, procToken_num_only "250.50".data (by decide) (by decide) (by decide)]
  rw [List.foldl_cons, procToken_num_only "2024".data (by decide) (by decide) (by decide)]
  rw [List.foldl_cons, procToken_num_only "03".data (by decide) (by decide) (by decide)]
  rw [List.foldl_cons, procToken_num_only "01".data (by decide) (by decide) (by decide)]
  rw [List.foldl_nil]
  have hven : (capitalizeTok "acme".data).asString = "Acme" := by decide
  have hamt : parseFloatToken "01".data = (1 : ℚ) := by decide
  rw [hven, hamt]

theorem extract_tokens_receipt (ts : List Char) (hd : ts.all Char.isDigit = true) :
    extractTokens ("uploads/".data ++ (ts ++ "_receipt.pdf".data)) =
      ts :: ["receipt".data] := by
  have hdig := all_digit_forall hd
  have hslash : ∀ c ∈ ts ++ "_receipt.pdf".data, c ≠ '/' := by
    intro c hc
    rcases List.mem_append.mp hc with h | h
    · exact (digit_ne (hdig c h)).2.2.2
    · intro he
      subst he
      exact absurd h (by decide)
  have hext : ∀ c ∈ "pdf".data, c ≠ '.' := by decide
  have hall : (ts ++ "_receipt".data).all (fun c => c == '.') = false := by
    rw [List.all_append]
    have hlit : "_receipt".data.all (fun c => c == '.') = false := by decide
    rw [hlit, Bool.and_false]
  unfold extractTokens
  have h1 : "uploads/".data ++ (ts ++ "_receipt.pdf".data)
      = "uploads".data ++ '/' :: (ts ++ "_receipt.pdf".data) := rfl
  rw [h1, basenameChars_append _ hslash]
  have h2 : ts ++ "_receipt.pdf".data
      = (ts ++ "_receipt".data) ++ '.' :: "pdf".data := by
    rw [List.append_assoc]
    exact congrArg (fun x => ts ++ x) (by decide)
  rw [h2, stripExt_append hext hall]
  rw [replaceDash_append, replaceDash_eq_self (fun c hc => (digit_ne (hdig c hc)).1)]
  have h3 : replaceDash "_receipt".data = '_' :: "receipt".data := by decide
  rw [h3, splitU_append (fun c hc => (digit_ne (hdig c hc)).2.1)]
  have h4 : splitU "receipt".data = ["receipt".data] := by decide
  rw [h4]

theorem extract_receipt (ts nd ti : String) (hne : ts.data ≠ [])
    (hd : ts.data.all Char.isDigit = true) :
    mock_ai_extract ("uploads/" ++ (ts ++ "_" ++ "receipt.pdf")) nd ti
      = { vendor_name := "Receipt", invoice_number := "INV-" ++ ti,
          total_amount := (digitsToNat ts.data : ℚ), date := nd } := by
  unfold mock_ai_extract
  have hpath : ("uploads/" ++ (ts ++ "_" ++ "receipt.pdf")).data
      = "uploads/".data ++ (ts.data ++ "_receipt.pdf".data) := by
    show "uploads/".data ++ ((ts.data ++ "_".data) ++ "receipt.pdf".data) = _
    rw [List.append_assoc]
    exact congrArg (fun x => "uploads/".data ++ (ts.data ++ x)) (by decide)
  rw [hpath, extract_tokens_receipt ts.data hd]
  rw [List.foldl_cons, procToken_digits ts.data hne hd]
  rw [List.foldl_cons, procToken_alpha_only "receipt".data (by decide) (by decide) (by decide)]
  rw [List.foldl_nil]
  have hven : (capitalizeTok "receipt".data).asString = "Receipt" := by decide
  rw [hven]

/-! ## Store lemmas -/

theorem updateFirst_append_last {p : InvoiceDoc → Bool} {f : InvoiceDoc → InvoiceDoc}
    (d : InvoiceDoc) :
    ∀ (l : List InvoiceDoc), (∀ x ∈ l, p x = false) → p d = true →
      updateFirst p f (l ++ [d]) = (1, l ++ [f d]) := by
  intro l
  induction l with
  | nil =>
    intro _ hd
    simp [updateFirst, hd]
  | cons a l ih =>
    intro h hd
    have ha : p a = false := h a (List.mem_cons_self a l)
    have hih := ih (fun x hx => h x (List.mem_cons_of_mem _ hx)) hd
    rw [List.cons_append]
    simp [updateFirst, ha, hih]

theorem updateFirst_pointwise (p : InvoiceDoc → Bool) (f : InvoiceDoc → InvoiceDoc) :
    ∀ (l : List InvoiceDoc),
      List.Forall₂ (fun old new => new = old ∨ new = f old) l (updateFirst p f l).2 := by
  intro l
  induction l with
  | nil => exact List.Forall₂.nil
  | cons a l ih =>
    simp only [updateFirst]
    split
    · exact List.Forall₂.cons (Or.inr rfl) (List.forall₂_same.mpr (fun x _ => Or.inl rfl))
    · exact List.Forall₂.cons (Or.inl rfl) ih

theorem update_invoice_store_pointwise (cu : Option String) (r : UpdateInvoiceRequest)
    (store : List InvoiceDoc) :
    List.Forall₂ (fun old new => new = old ∨ new = applyUpdates r old)
      store (update_invoice cu r store).2 := by
  have hrefl : List.Forall₂ (fun old new => new = old ∨ new = applyUpdates r old) store store :=
    List.forall₂_same.mpr (fun x _ => Or.inl rfl)
  cases cu with
  | none => exact hrefl
  | some user =>
    simp only [update_invoice]
    split
    · exact hrefl
    · split
      · exact hrefl
      · split
        · exact updateFirst_pointwise _ _ store
        · exact updateFirst_pointwise _ _ store

/-! ## Claim theorems -/

/-- C9: For every input file path, the date-override rule of `mock_ai_extract`
never fires: every '-' in the base name is replaced by '_' before splitting,
so no token can contain '-', the `p[4] == '-' and p[7] == '-'` condition is
unsatisfiable, and the returned date is always the current date (`nowDate`). -/
theorem mock_ai_extract_date_never_overridden (file_path nowDate tsNow : String) :
    (mock_ai_extract file_path nowDate tsNow).date = nowDate := by
  unfold mock_ai_extract
  have h : ∀ t ∈ extractTokens file_path.data, '-' ∉ t := by
    intro t ht hc
    unfold extractTokens at ht
    exact not_dash_mem_replaceDash _ (mem_splitU ht '-' hc)
  exact foldl_procToken_date _ _ h

/-- C1 (counterexample): uploading `acme_250.50_2024-03-01.pdf` does not yield
`totalAmount = 250.50` and `date = "2024-03-01"`.  At timestamp 1700000000 and
current date 2025-06-05 the returned payload carries `totalAmount = 1` (the
final numeric token "01" of the dash-split date wins) and `date = 2025-06-05`
(the current date). -/
theorem upload_acme_counterexample :
    (upload_invoice (some "u1") "acme_250.50_2024-03-01.pdf" "1700000000" "1700000001"
        "2025-06-05" "id1" false []).1
      = .ok { id := "id1", vendor_name := "Acme", invoice_number := "INV-1700000001",
              total_amount := 1, date := "2025-06-05", status := "Needs Review" }
    ∧ (1 : ℚ) ≠ (250.50 : ℚ) ∧ ("2025-06-05" : String) ≠ "2024-03-01" := by
  refine ⟨rfl, by norm_num, by decide⟩

/-- C1 (amended): for the upload of a file named `acme_250.50_2024-03-01.pdf`,
`mock_ai_extract` (run on the stored path, whose base name carries an all-digit
timestamp prefix) returns `vendorName = "Acme"`, `totalAmount = 1.0` (the
timestamp, "250.50", "2024", "03" and "01" all parse as numbers and the last
one wins) and `date` = the current date (the date rule cannot fire). -/
theorem upload_acme_extraction (u ts ti nd newId : String) (store : List InvoiceDoc)
    (hne : ts.data ≠ []) (hd : ts.data.all Char.isDigit = true) :
    (upload_invoice (some u) "acme_250.50_2024-03-01.pdf" ts ti nd newId false store).1
      = .ok { id := newId, vendor_name := "Acme", invoice_number := "INV-" ++ ti,
              total_amount := 1, date := nd, status := "Needs Review" } := by
  have h1 : (upload_invoice (some u) "acme_250.50_2024-03-01.pdf" ts ti nd newId false store).1
      = .ok { id := newId
              vendor_name := (mock_ai_extract ("uploads/" ++ (ts ++ "_" ++ "acme_250.50_2024-03-01.pdf")) nd ti).vendor_name
              invoice_number := (mock_ai_extract ("uploads/" ++ (ts ++ "_" ++ "acme_250.50_2024-03-01.pdf")) nd ti).invoice_number
              total_amount := (mock_ai_extract ("uploads/" ++ (ts ++ "_" ++ "acme_250.50_2024-03-01.pdf")) nd ti).total_amount
              date := (mock_ai_extract ("uploads/" ++ (ts ++ "_" ++ "acme_250.50_2024-03-01.pdf")) nd ti).date
              status := "Needs Review" } := rfl
  rw [h1, extract_acme ts nd ti hne hd]

theorem upload_acme_extraction_w :
    (upload_invoice (some "u1") "acme_250.50_2024-03-01.pdf" "1700000000" "1700000001"
        "2025-06-05" "id1" false []).1
      = .ok { id := "id1", vendor_name := "Acme", invoice_number := "INV-" ++ "1700000001",
              total_amount := 1, date := "2025-06-05", status := "Needs Review" } :=
  upload_acme_extraction "u1" "1700000000" "1700000001" "2025-06-05" "id1" []
    (by decide) (by decide)

/-- C3 (counterexample): uploading `receipt.pdf` does not yield the defaults.
At timestamp 1700000000 the stored base name is `1700000000_receipt`, so the
token "receipt" overrides the vendor to "Receipt" and the all-digit timestamp
token overrides the amount to 1700000000. -/
theorem upload_receipt_counterexample :
    (upload_invoice (some "u1") "receipt.pdf" "1700000000" "1700000001"
        "2025-06-05" "id1" false []).1
      = .ok { id := "id1", vendor_name := "Receipt", invoice_number := "INV-1700000001",
              total_amount := 1700000000, date := "2025-06-05", status := "Needs Review" }
    ∧ ("Receipt" : String) ≠ "Acme Corp" ∧ (1700000000 : ℚ) ≠ (199.0 : ℚ) := by
  refine ⟨rfl, by decide, by norm_num⟩

/-- C3 (amended): for the upload of a file named `receipt.pdf`,
`mock_ai_extract` returns `vendorName = "Receipt"` (the token "receipt" is
alphabetic and at least 3 characters long), `totalAmount` = the numeric value
of the stored name's all-digit timestamp prefix, `date` = the current date,
and an `invoiceNumber` containing the current timestamp. -/
theorem upload_receipt_extraction (u ts ti nd newId : String) (store : List InvoiceDoc)
    (hne : ts.data ≠ []) (hd : ts.data.all Char.isDigit = true) :
    (upload_invoice (some u) "receipt.pdf" ts ti nd newId false store).1
      = .ok { id := newId, vendor_name := "Receipt", invoice_number := "INV-" ++ ti,
              total_amount := (digitsToNat ts.data : ℚ), date := nd,
              status := "Needs Review" } := by
  have h1 : (upload_invoice (some u) "receipt.pdf" ts ti nd newId false store).1
      = .ok { id := newId
              vendor_name := (mock_ai_extract ("uploads/" ++ (ts ++ "_" ++ "receipt.pdf")) nd ti).vendor_name
              invoice_number := (mock_ai_extract ("uploads/" ++ (ts ++ "_" ++ "receipt.pdf")) nd ti).invoice_number
              total_amount := (mock_ai_extract ("uploads/" ++ (ts ++ "_" ++ "receipt.pdf")) nd ti).total_amount
              date := (mock_ai_extract ("uploads/" ++ (ts ++ "_" ++ "receipt.pdf")) nd ti).date
              status := "Needs Review" } := rfl
  rw [h1, extract_receipt ts nd ti hne hd]

theorem upload_receipt_extraction_w :
    (upload_invoice (some "u1") "receipt.pdf" "1700000000" "1700000001"
        "2025-06-05" "id1" false []).1
      = .ok { id := "id1", vendor_name := "Receipt", invoice_number := "INV-" ++ "1700000001",
              total_amount := (digitsToNat "1700000000".data : ℚ), date := "2025-06-05",
              status := "Needs Review" } :=
  upload_receipt_extraction "u1" "1700000000" "1700000001" "2025-06-05" "id1" []
    (by decide) (by decide)

/-- An invoice owned by "bob", used to exercise the wrong-owner update path. -/
def bobInvoice : InvoiceDoc :=
  { id := "aaaaaaaaaaaaaaaaaaaaaaaa"
    user_id := "bob"
    file_path := some "uploads/1_b.pdf"
    file_name := some "b.pdf"
    invoice_number := some "INV-1"
    vendor_name := some "Acme Corp"
    date := some "2024-01-01"
    total_amount := some 10
    status := "Processing" }

/-- C2: an `update_invoice` call by "alice" naming a well-formed id that
belongs to "bob" matches zero documents and modifies nothing, but the
explicitly raised 404 is caught by the handler's blanket `except` and
re-raised as 400, so the caller sees BadRequest, not NotFound. -/
theorem update_invoice_wrong_owner_gives_bad_request :
    update_invoice (some "alice")
      { invoice_id := "aaaaaaaaaaaaaaaaaaaaaaaa", invoice_number := none,
        vendor_name := none, date := none, total_amount := none,
        status := some "Approved" }
      [bobInvoice]
      = (.error .badRequest, [bobInvoice])
    ∧ HErr.badRequest ≠ HErr.notFound := by
  refine ⟨rfl, by decide⟩

/-- An invoice owned by "alice", used to exercise the negative-amount update. -/
def aliceInvoice : InvoiceDoc :=
  { id := "bbbbbbbbbbbbbbbbbbbbbbbb"
    user_id := "alice"
    file_path := some "uploads/1_a.pdf"
    file_name := some "a.pdf"
    invoice_number := some "INV-2"
    vendor_name := some "Acme Corp"
    date := some "2024-01-02"
    total_amount := some 10
    status := "Processing" }

/-- C4: `update_invoice` accepts a request that sets `totalAmount` to -5 on
the caller's own invoice and stores the negative value: `UpdateInvoiceRequest`
carries no lower bound and the raw `$set` bypasses the `Invoice` schema's
`ge=0` constraint. -/
theorem update_invoice_accepts_negative_amount :
    update_invoice (some "alice")
      { invoice_id := "bbbbbbbbbbbbbbbbbbbbbbbb", invoice_number := none,
        vendor_name := none, date := none, total_amount := some (-5),
        status := none }
      [aliceInvoice]
      = (.ok (), [{ aliceInvoice with total_amount := some (-5) }])
    ∧ ((-5 : ℚ) < 0) := by
  refine ⟨rfl, by norm_num⟩

/-- C5: a successful upload returns a payload with status "Needs Review",
while the persisted document keeps status "Processing": the post-extraction
patch writes exactly the four derived fields (`vendor_name`,
`invoice_number`, `total_amount`, `date`) and never `status`. -/
theorem upload_invoice_status_drift (u fn ts ti nd newId : String)
    (store : List InvoiceDoc)
    (hfresh : ∀ x ∈ store, (x.id == newId) = false) :
    (upload_invoice (some u) fn ts ti nd newId false store).1
      = .ok { id := newId
              vendor_name := (mock_ai_extract ("uploads/" ++ (ts ++ "_" ++ fn)) nd ti).vendor_name
              invoice_number := (mock_ai_extract ("uploads/" ++ (ts ++ "_" ++ fn)) nd ti).invoice_number
              total_amount := (mock_ai_extract ("uploads/" ++ (ts ++ "_" ++ fn)) nd ti).total_amount
              date := (mock_ai_extract ("uploads/" ++ (ts ++ "_" ++ fn)) nd ti).date
              status := "Needs Review" }
    ∧ (upload_invoice (some u) fn ts ti nd newId false store).2
      = store ++ [{ id := newId
                    user_id := u
                    file_path := some ("uploads/" ++ (ts ++ "_" ++ fn))
                    file_name := some fn
                    invoice_number := some (mock_ai_extract ("uploads/" ++ (ts ++ "_" ++ fn)) nd ti).invoice_number
                    vendor_name := some (mock_ai_extract ("uploads/" ++ (ts ++ "_" ++ fn)) nd ti).vendor_name
                    date := some (mock_ai_extract ("uploads/" ++ (ts ++ "_" ++ fn)) nd ti).date
                    total_amount := some (mock_ai_extract ("uploads/" ++ (ts ++ "_" ++ fn)) nd ti).total_amount
                    status := "Processing" }] := by
  constructor
  · rfl
  · have h := updateFirst_append_last
      (p := fun d => d.id == newId)
      (f := fun d =>
        { d with
          vendor_name := some (mock_ai_extract ("uploads/" ++ (ts ++ "_" ++ fn)) nd ti).vendor_name
          invoice_number := some (mock_ai_extract ("uploads/" ++ (ts ++ "_" ++ fn)) nd ti).invoice_number
          total_amount := some (mock_ai_extract ("uploads/" ++ (ts ++ "_" ++ fn)) nd ti).total_amount
          date := some (mock_ai_extract ("uploads/" ++ (ts ++ "_" ++ fn)) nd ti).date })
      { id := newId
        user_id := u
        file_path := some ("uploads/" ++ (ts ++ "_" ++ fn))
        file_name := some fn
        invoice_number := none
        vendor_name := none
        date := none
        total_amount := none
        status := "Processing" }
      store hfresh (by simp)
    exact congrArg Prod.snd h

theorem upload_invoice_status_drift_w :
    (upload_invoice (some "u1") "f.pdf" "1" "2" "2025-06-05" "id1" false []).1
      = .ok { id := "id1"
              vendor_name := (mock_ai_extract ("uploads/" ++ ("1" ++ "_" ++ "f.pdf")) "2025-06-05" "2").vendor_name
              invoice_number := (mock_ai_extract ("uploads/" ++ ("1" ++ "_" ++ "f.pdf")) "2025-06-05" "2").invoice_number
              total_amount := (mock_ai_extract ("uploads/" ++ ("1" ++ "_" ++ "f.pdf")) "2025-06-05" "2").total_amount
              date := (mock_ai_extract ("uploads/" ++ ("1" ++ "_" ++ "f.pdf")) "2025-06-05" "2").date
              status := "Needs Review" }
    ∧ (upload_invoice (some "u1") "f.pdf" "1" "2" "2025-06-05" "id1" false []).2
      = [] ++ [{ id := "id1"
                 user_id := "u1"
                 file_path := some ("uploads/" ++ ("1" ++ "_" ++ "f.pdf"))
                 file_name := some "f.pdf"
                 invoice_number := some (mock_ai_extract ("uploads/" ++ ("1" ++ "_" ++ "f.pdf")) "2025-06-05" "2").invoice_number
                 vendor_name := some (mock_ai_extract ("uploads/" ++ ("1" ++ "_" ++ "f.pdf")) "2025-06-05" "2").vendor_name
                 date := some (mock_ai_extract ("uploads/" ++ ("1" ++ "_" ++ "f.pdf")) "2025-06-05" "2").date
                 total_amount := some (mock_ai_extract ("uploads/" ++ ("1" ++ "_" ++ "f.pdf")) "2025-06-05" "2").total_amount
                 status := "Processing" }] :=
  upload_invoice_status_drift "u1" "f.pdf" "1" "2" "2025-06-05" "id1" [] (by simp)

/-- C6: if the post-extraction store patch fails, the failure is swallowed:
`upload_invoice` returns exactly the same merged payload as on the success
path, and the result is a success (`.ok`), never an error. -/
theorem upload_invoice_patch_failure_swallowed (u fn ts ti nd newId : String)
    (store : List InvoiceDoc) :
    (upload_invoice (some u) fn ts ti nd newId true store).1
      = (upload_invoice (some u) fn ts ti nd newId false store).1
    ∧ (upload_invoice (some u) fn ts ti nd newId true store).1
      = .ok { id := newId
              vendor_name := (mock_ai_extract ("uploads/" ++ (ts ++ "_" ++ fn)) nd ti).vendor_name
              invoice_number := (mock_ai_extract ("uploads/" ++ (ts ++ "_" ++ fn)) nd ti).invoice_number
              total_amount := (mock_ai_extract ("uploads/" ++ (ts ++ "_" ++ fn)) nd ti).total_amount
              date := (mock_ai_extract ("uploads/" ++ (ts ++ "_" ++ fn)) nd ti).date
              status := "Needs Review" } :=
  ⟨rfl, rfl⟩

/-- C7: `update_invoice` applies exactly the non-null request fields: an
absent/null field is left unchanged, a field can never be cleared to null,
the non-updatable fields are untouched, and every document in the resulting
store is either unchanged or the patched image of the old document. -/
theorem update_invoice_absent_fields_unchanged (r : UpdateInvoiceRequest)
    (d : InvoiceDoc) (cu : Option String) (store : List InvoiceDoc) :
    ((applyUpdates r d).invoice_number = r.invoice_number.or d.invoice_number
      ∧ (applyUpdates r d).vendor_name = r.vendor_name.or d.vendor_name
      ∧ (applyUpdates r d).date = r.date.or d.date
      ∧ (applyUpdates r d).total_amount = r.total_amount.or d.total_amount
      ∧ (applyUpdates r d).status = r.status.getD d.status)
    ∧ ((applyUpdates r d).invoice_number = none
        ↔ r.invoice_number = none ∧ d.invoice_number = none)
    ∧ ((applyUpdates r d).vendor_name = none
        ↔ r.vendor_name = none ∧ d.vendor_name = none)
    ∧ ((applyUpdates r d).date = none ↔ r.date = none ∧ d.date = none)
    ∧ ((applyUpdates r d).total_amount = none
        ↔ r.total_amount = none ∧ d.total_amount = none)
    ∧ ((applyUpdates r d).id = d.id ∧ (applyUpdates r d).user_id = d.user_id
        ∧ (applyUpdates r d).file_path = d.file_path
        ∧ (applyUpdates r d).file_name = d.file_name)
    ∧ List.Forall₂ (fun old new => new = old ∨ new = applyUpdates r old)
        store (update_invoice cu r store).2 := by
  refine ⟨⟨?_, ?_, ?_, ?_, ?_⟩, ?_, ?_, ?_, ?_, ⟨rfl, rfl, rfl, rfl⟩,
    update_invoice_store_pointwise cu r store⟩
  · cases h : r.invoice_number <;> simp [applyUpdates, Option.or, h]
  · cases h : r.vendor_name <;> simp [applyUpdates, Option.or, h]
  · cases h : r.date <;> simp [applyUpdates, Option.or, h]
  · cases h : r.total_amount <;> simp [applyUpdates, Option.or, h]
  · cases h : r.status <;> simp [applyUpdates, Option.getD, h]
  · cases h : r.invoice_number <;> simp [applyUpdates, h]
  · cases h : r.vendor_name <;> simp [applyUpdates, h]
  · cases h : r.date <;> simp [applyUpdates, h]
  · cases h : r.total_amount <;> simp [applyUpdates, h]

/-- C8: for every accepted `create_user` call, the stored user's
`creditsRemaining` is 50 when the tier is "Free" and 1000 for the only other
accepted tier value ("Pro"). -/
theorem create_user_credits (name email tier role : String) (u : UserDoc)
    (h : create_user name email tier role = .ok u) :
    u.credits_remaining = if tier == "Free" then 50 else 1000 := by
  unfold create_user at h
  split at h
  · injection h with h
    rw [← h]
  · exact absurd h (by simp)

theorem create_user_credits_w :
    ({ name := "a", email := "a@b.c", subscription_tier := "Pro",
       credits_remaining := 1000, role := "customer" } : UserDoc).credits_remaining
      = if ("Pro" == "Free") then 50 else 1000 :=
  create_user_credits "a" "a@b.c" "Pro" "customer" _ rfl

/-- C10: an `update_invoice` call with a well-formed id and all five
updatable fields null produces an empty `$set`, which the store rejects, and
the handler's blanket `except` surfaces the failure as BadRequest rather than
succeeding as a no-op; the store is unchanged. -/
theorem update_invoice_empty_patch_bad_request (u : String)
    (r : UpdateInvoiceRequest) (store : List InvoiceDoc)
    (hid : isValidObjectId r.invoice_id = true)
    (h1 : r.invoice_number = none) (h2 : r.vendor_name = none)
    (h3 : r.date = none) (h4 : r.total_amount = none) (h5 : r.status = none) :
    update_invoice (some u) r store = (.error .badRequest, store) := by
  simp [update_invoice, hasUpdates, hid, h1, h2, h3, h4, h5]

theorem update_invoice_empty_patch_bad_request_w :
    update_invoice (some "alice")
      { invoice_id := "cccccccccccccccccccccccc", invoice_number := none,
        vendor_name := none, date := none, total_amount := none, status := none }
      []
      = (.error .badRequest, []) :=
  update_invoice_empty_patch_bad_request "alice" _ [] (by decide) rfl rfl rfl rfl rfl
